import Mathlib

/-!
Verification development for the citation-enrichment pipeline of the
deepsci repository (src/deepsci/sources/citation_client.py,
src/deepsci/sources/citation_cache.py, src/deepsci/sources/arxiv_client.py).

The Python code is shallowly embedded:
* Python dicts used for statistics become association lists
  `List (String × Nat)`; `d[k] += 1` becomes `dictIncr`, which fails
  (KeyError) when the key is absent.
* The in-memory cache dict of `CitationCache` becomes
  `List (String × CacheEntry)`; timestamps are integer seconds, so the
  Python test `datetime.now() - cached_time > timedelta(days=n)` becomes
  `now - cachedAt > n * 86400`.
* Network interactions are modelled by oracles: the outcome of each
  Semantic Scholar attempt (`Nat → Outcome`, indexed by the 0-based
  attempt number) and the Google Scholar response (`Option ScholarData`,
  `none` covering both "no data" and an exception inside the scholar
  client).
* Side effects that matter to the specification (rate-limit waits,
  remote lookups, backoff sleeps) are recorded in an event trace.
* A Python `raise` escaping a function is an `Except.error` carrying the
  error description.
-/

set_option autoImplicit false

namespace DeepSci

/-! ## Python dict of counters (the `self.stats` dict) -/

/-- Association-list lookup, mirroring `d[k]` read / `k in d`. -/
def dictGet (d : List (String × Nat)) (k : String) : Option Nat :=
  match d with
  | [] => none
  | (k', v) :: rest => if k' = k then some v else dictGet rest k

/-- `d[k] += 1`: `some` of the updated dict when the key is present,
`none` when Python would raise `KeyError`. -/
def dictIncr (d : List (String × Nat)) (k : String) : Option (List (String × Nat)) :=
  match d with
  | [] => none
  | (k', v) :: rest =>
    if k' = k then some ((k', v + 1) :: rest)
    else (dictIncr rest k).map (fun r => (k', v) :: r)

/-- The five-counter dict built by `CitationClient.__init__`. -/
def initStats : List (String × Nat) :=
  [("semantic_scholar_success", 0), ("semantic_scholar_fail", 0),
   ("scholar_fallback_used", 0), ("cache_hits", 0), ("total_attempts", 0)]

/-- The dict built by `CitationClient.reset_stats` — faithfully to the
source it has only four keys: `cache_hits` is missing. -/
def resetStatsDict : List (String × Nat) :=
  [("semantic_scholar_success", 0), ("semantic_scholar_fail", 0),
   ("scholar_fallback_used", 0), ("total_attempts", 0)]

/-! ## Citation records and provider responses -/

/-- The citation-metrics dict built by the client (keys
`citation_count`, `influential_citations`, `reference_count`, `year`,
`fields`, `venue`, `s2_fields`). -/
structure CitationRecord where
  citation_count : Nat
  influential_citations : Nat
  reference_count : Nat
  year : Option Int
  fields : List String
  venue : Option String
  s2_fields : List (Option String)
deriving DecidableEq, Repr

/-- String-valued dict lookup (for `publicationVenue.get('name')` and
`f.get('category')`). -/
def sdictGet (d : List (String × String)) (k : String) : Option String :=
  match d with
  | [] => none
  | (k', v) :: rest => if k' = k then some v else sdictGet rest k

/-- The raw paper object returned by `SemanticScholar.get_paper`:
every requested field may be `None`. -/
structure S2Paper where
  citationCount : Option Nat
  influentialCitationCount : Option Nat
  referenceCount : Option Nat
  year : Option Int
  fieldsOfStudy : Option (List String)
  publicationVenue : Option (List (String × String))
  s2FieldsOfStudy : Option (List (List (String × String)))
deriving DecidableEq, Repr

/-- Lines 135–143 of `citation_client.py`: build the result dict from the
paper object, defaulting absent numerics with `or 0` and absent lists
with `or []`. -/
def parseS2Paper (p : S2Paper) : CitationRecord :=
  { citation_count := p.citationCount.getD 0
    influential_citations := p.influentialCitationCount.getD 0
    reference_count := p.referenceCount.getD 0
    year := p.year
    fields := p.fieldsOfStudy.getD []
    venue := match p.publicationVenue with
      | some d => sdictGet d "name"
      | none => none
    s2_fields := (p.s2FieldsOfStudy.getD []).map (fun f => sdictGet f "category") }

/-- The dict returned by `ScholarClient.enrich_paper_with_scholar`. -/
structure ScholarData where
  citation_count : Nat
  year : Option Int
  venue : Option String
deriving DecidableEq, Repr

/-! ## CitationCache (`citation_cache.py`) -/

/-- A cache entry: `{'data': ..., 'cached_at': ...}` with the timestamp
in integer seconds. -/
structure CacheEntry where
  data : CitationRecord
  cached_at : Int
deriving DecidableEq, Repr

/-- Lookup in the cache dict. -/
def cdictGet (d : List (String × CacheEntry)) (k : String) : Option CacheEntry :=
  match d with
  | [] => none
  | (k', v) :: rest => if k' = k then some v else cdictGet rest k

/-- `self.cache[paper_id] = entry`: update in place when present,
append otherwise (Python dicts keep insertion order). -/
def cdictSet (d : List (String × CacheEntry)) (k : String) (v : CacheEntry) :
    List (String × CacheEntry) :=
  match d with
  | [] => [(k, v)]
  | (k', v') :: rest =>
    if k' = k then (k', v) :: rest else (k', v') :: cdictSet rest k v

/-- `del self.cache[paper_id]`. -/
def cdictErase (d : List (String × CacheEntry)) (k : String) :
    List (String × CacheEntry) :=
  match d with
  | [] => []
  | (k', v') :: rest =>
    if k' = k then rest else (k', v') :: cdictErase rest k

/-- In-memory state of a `CitationCache` instance: the TTL in days and
the loaded dict (disk persistence is write-through and does not feed
back into the semantics). -/
structure CacheState where
  cacheDays : Nat
  entries : List (String × CacheEntry)
deriving DecidableEq, Repr

/-- Default of the `cache_days` parameter of `CitationCache.__init__`. -/
def defaultCacheDays : Nat := 7

/-- `CitationCache.get`: absent key returns `None`; an entry older than
`cache_days` is deleted (with a save) and `None` is returned; a fresh
entry returns its `data`. Returns the value together with the updated
cache state. -/
def cacheGet (now : Int) (c : CacheState) (k : String) :
    Option CitationRecord × CacheState :=
  match cdictGet c.entries k with
  | none => (none, c)
  | some e =>
    if now - e.cached_at > (c.cacheDays : Int) * 86400 then
      (none, { c with entries := cdictErase c.entries k })
    else
      (some e.data, c)

/-- `CitationCache.set`: upsert with `cached_at = now`. -/
def cacheSet (now : Int) (c : CacheState) (k : String) (r : CitationRecord) :
    CacheState :=
  { c with entries := cdictSet c.entries k ⟨r, now⟩ }

/-! ## Identifier normalization (line 104 of `citation_client.py`) -/

/-- Fuel-indexed worker for `removeOcc`; with fuel at least the length
of the list the fuel never runs out (the list shrinks by at least one
element per step). Structural recursion on the fuel keeps the function
kernel-reducible. -/
def removeOccAux (pat : List Char) : Nat → List Char → List Char
  | 0, s => s
  | _, [] => []
  | fuel + 1, c :: rest =>
    if pat ≠ [] ∧ pat.isPrefixOf (c :: rest) then
      removeOccAux pat fuel (List.drop (pat.length - 1) rest)
    else
      c :: removeOccAux pat fuel rest

/-- Remove every (left-to-right, non-overlapping) occurrence of `pat`
from `s` — the semantics of Python's `s.replace(pat, '')`. -/
def removeOcc (pat : List Char) (s : List Char) : List Char :=
  removeOccAux pat s.length s

/-- `arxiv_id.replace('arxiv:', '').replace('arXiv:', '')
.replace('v1', '').replace('v2', '').replace('v3', '')` — the cleaning
applied to the identifier before any cache or provider call. -/
def cleanArxivId (s : String) : String :=
  String.mk (removeOcc "v3".toList (removeOcc "v2".toList (removeOcc "v1".toList
    (removeOcc "arXiv:".toList (removeOcc "arxiv:".toList s.toList)))))

/-! ## CitationClient (`citation_client.py`) -/

/-- Observable events of a lookup: the rate-limit wait, a remote
Semantic Scholar lookup for a (cleaned) identifier, a backoff sleep of
`n` seconds, a Google Scholar title lookup. -/
inductive Ev where
  | rateWait : Ev
  | s2Lookup : String → Ev
  | sleepSec : Nat → Ev
  | scholarLookup : String → Ev
deriving DecidableEq, Repr

/-- Outcome of one primary attempt (`self.sch.get_paper`): the call
returned a falsy value (paper not found), raised an exception (the flag
records whether it was a rate-limit/429 signal — the code never reads
it), or returned a paper object. -/
inductive Outcome where
  | notFound : Outcome
  | raiseErr : Bool → Outcome
  | found : S2Paper → Outcome
deriving DecidableEq, Repr

/-- Mutable state of a `CitationClient` instance: the fallback switch,
the optional cache (`None` when `use_cache=False`), and the stats dict. -/
structure ClientState where
  useScholarFallback : Bool
  cache : Option CacheState
  stats : List (String × Nat)
deriving DecidableEq, Repr

/-- Python truthiness of the optional `paper_title` argument: `None`
and the empty string are falsy. -/
def titleTruthy : Option String → Bool
  | none => false
  | some s => s ≠ ""

/-- `CitationClient._get_scholar_fallback` — the single best-effort
title lookup. `scholarOracle` is the scholar client's response (`none`
covers both "no data" and an exception, which the method swallows).
A `citation_count` of 0 is rejected; on acceptance the
`scholar_fallback_used` counter is incremented (a `KeyError` there is
caught by the surrounding `except` and turns the call into `None`). -/
def getScholarFallback (st : ClientState) (scholarOracle : Option ScholarData)
    (title : String) : Option CitationRecord × ClientState × List Ev :=
  if st.useScholarFallback = false then (none, st, [])
  else
    let evs := [Ev.scholarLookup title]
    match scholarOracle with
    | none => (none, st, evs)
    | some d =>
      if d.citation_count > 0 then
        match dictIncr st.stats "scholar_fallback_used" with
        | some s' =>
          (some { citation_count := d.citation_count
                  influential_citations := 0
                  reference_count := 0
                  year := d.year
                  fields := []
                  venue := d.venue
                  s2_fields := [] },
           { st with stats := s' }, evs)
        | none => (none, st, evs)
      else (none, st, evs)

/-- The retry loop `for attempt in range(retry_count + 1)` of
`get_citations_by_arxiv_id`. Each iteration waits on the rate limiter
and performs the remote lookup; "not found" falls through to the next
attempt, an exception sleeps `1 * (attempt + 1)` seconds when another
attempt remains; a found paper increments `semantic_scholar_success`
(a `KeyError` there is caught like any other exception), is parsed,
written through the cache and returned. `remaining` is the number of
iterations left, so the loop is entered with `remaining = retryCount + 1`. -/
def primaryLoop (oracle : Nat → Outcome) (now : Int) (aid : String)
    (retryCount : Nat) :
    Nat → Nat → ClientState → List Ev →
    Option CitationRecord × ClientState × List Ev
  | _, 0, st, evs => (none, st, evs)
  | attempt, remaining + 1, st, evs =>
    let evs := evs ++ [Ev.rateWait, Ev.s2Lookup aid]
    match oracle attempt with
    | Outcome.notFound =>
      primaryLoop oracle now aid retryCount (attempt + 1) remaining st evs
    | Outcome.raiseErr _ =>
      let evs := if attempt < retryCount
        then evs ++ [Ev.sleepSec (1 * (attempt + 1))] else evs
      primaryLoop oracle now aid retryCount (attempt + 1) remaining st evs
    | Outcome.found p =>
      match dictIncr st.stats "semantic_scholar_success" with
      | some s' =>
        let r := parseS2Paper p
        let st' : ClientState :=
          match st.cache with
          | some c => { st with stats := s', cache := some (cacheSet now c aid r) }
          | none => { st with stats := s' }
        (some r, st', evs)
      | none =>
        let evs := if attempt < retryCount
          then evs ++ [Ev.sleepSec (1 * (attempt + 1))] else evs
        primaryLoop oracle now aid retryCount (attempt + 1) remaining st evs

/-- Default of the `retry_count` parameter of
`get_citations_by_arxiv_id`. -/
def defaultRetryCount : Nat := 2

/-- `CitationClient.get_citations_by_arxiv_id`: increment
`total_attempts` (a missing key raises), clean the identifier, consult
the cache (a hit increments `cache_hits` — raising if that key is
missing — and returns the cached record), otherwise run the primary
retry loop; if it fails, increment `semantic_scholar_fail`, and when a
truthy title was supplied and the fallback is enabled, try the scholar
fallback, caching an accepted result under the cleaned identifier.
Returns the result (`Except.error` = an escaped `KeyError`), the final
client state, and the event trace. -/
def getCitationsByArxivId (st : ClientState) (oracle : Nat → Outcome)
    (scholarOracle : Option ScholarData) (now : Int) (arxivId : String)
    (paperTitle : Option String) (retryCount : Nat) :
    Except String (Option CitationRecord) × ClientState × List Ev :=
  match dictIncr st.stats "total_attempts" with
  | none => (Except.error "KeyError: total_attempts", st, [])
  | some s0 =>
    let st0 : ClientState := { st with stats := s0 }
    let aid := cleanArxivId arxivId
    let hit : Option CitationRecord × ClientState :=
      match st0.cache with
      | some c =>
        let rc := cacheGet now c aid
        (rc.1, { st0 with cache := some rc.2 })
      | none => (none, st0)
    match hit with
    | (some r, st1) =>
      match dictIncr st1.stats "cache_hits" with
      | none => (Except.error "KeyError: cache_hits", st1, [])
      | some s1 => (Except.ok (some r), { st1 with stats := s1 }, [])
    | (none, st1) =>
      let lp := primaryLoop oracle now aid retryCount 0 (retryCount + 1) st1 []
      match lp with
      | (some r, st2, evs) => (Except.ok (some r), st2, evs)
      | (none, st2, evs) =>
        match dictIncr st2.stats "semantic_scholar_fail" with
        | none => (Except.error "KeyError: semantic_scholar_fail", st2, evs)
        | some s2 =>
          let st3 : ClientState := { st2 with stats := s2 }
          if titleTruthy paperTitle ∧ st3.useScholarFallback then
            let fb := getScholarFallback st3 scholarOracle (paperTitle.getD "")
            let st5 : ClientState :=
              match fb.1, fb.2.1.cache with
              | some r, some c =>
                { fb.2.1 with cache := some (cacheSet now c aid r) }
              | _, _ => fb.2.1
            (Except.ok fb.1, st5, evs ++ fb.2.2)
          else (Except.ok none, st3, evs)

/-- `CitationClient.reset_stats`. -/
def resetStats (st : ClientState) : ClientState :=
  { st with stats := resetStatsDict }

/-! ## Batch enrichment (`arxiv_client.py`, `_enrich_with_citations`) -/

/-- The fields of a `Paper` dataclass that the enrichment reads or
writes (`id`, `title`, `citation_count`, `influential_citations`). -/
structure Paper where
  id : String
  title : String
  citation_count : Nat
  influential_citations : Nat
deriving DecidableEq, Repr

/-- The retry count hard-coded by `fetch_citation` inside
`_enrich_with_citations` ("Reduce retries for parallel processing
speed"). -/
def batchRetryCount : Nat := 1

/-- Per-paper network environment of a batch run: the attempt oracle
and the scholar response for each paper. -/
structure BatchEnv where
  oracleFor : Paper → Nat → Outcome
  scholarFor : Paper → Option ScholarData

/-- The inner `fetch_citation(paper)` of `_enrich_with_citations`: call
`get_citations_by_arxiv_id(paper.id, paper_title=paper.title,
retry_count=1)`; on a truthy metrics dict copy `citation_count` and
`influential_citations` onto the paper; any exception is swallowed and
the paper returned as-is. -/
def fetchCitation (env : BatchEnv) (now : Int) (st : ClientState)
    (p : Paper) : Paper × ClientState × List Ev :=
  let r := getCitationsByArxivId st (env.oracleFor p) (env.scholarFor p)
    now p.id (some p.title) batchRetryCount
  match r with
  | (Except.error _, st', evs) => (p, st', evs)
  | (Except.ok none, st', evs) => (p, st', evs)
  | (Except.ok (some m), st', evs) =>
    ({ p with citation_count := m.citation_count
              influential_citations := m.influential_citations }, st', evs)

/-- `_enrich_with_citations`: `executor.map(fetch_citation, papers)`
returns the per-paper results in input order (Python `Executor.map`
semantics); the shared client state is threaded through the papers and
the traces are concatenated. -/
def enrichWithCitations (env : BatchEnv) (now : Int) (st : ClientState) :
    List Paper → List Paper × ClientState × List Ev
  | [] => ([], st, [])
  | p :: rest =>
    let r := fetchCitation env now st p
    let rec' := enrichWithCitations env now r.2.1 rest
    (r.1 :: rec'.1, rec'.2.1, r.2.2 ++ rec'.2.2)

instance exceptDecEq {ε α : Type} [DecidableEq ε] [DecidableEq α] :
    DecidableEq (Except ε α) := fun x y =>
  match x, y with
  | Except.error a, Except.error b =>
    if h : a = b then Decidable.isTrue (by rw [h])
    else Decidable.isFalse (by intro he; cases he; exact h rfl)
  | Except.ok a, Except.ok b =>
    if h : a = b then Decidable.isTrue (by rw [h])
    else Decidable.isFalse (by intro he; cases he; exact h rfl)
  | Except.error _, Except.ok _ => Decidable.isFalse (by intro he; cases he)
  | Except.ok _, Except.error _ => Decidable.isFalse (by intro he; cases he)

/-! ## Helper predicates used in theorem statements -/

/-- Number of remote primary lookups recorded in a trace. -/
def countS2 : List Ev → Nat
  | [] => 0
  | Ev.s2Lookup _ :: rest => countS2 rest + 1
  | _ :: rest => countS2 rest

/-- The event sequence of a run of the retry loop in which every
attempt fails, read off the specification: each attempt is a rate-limit
wait followed by the remote lookup; an attempt that raised an exception
is followed by a sleep of `1 * (attempt + 1)` seconds when a retry
remains; a "not found" attempt falls straight through to the next. -/
def primaryFailSchedule (oracle : Nat → Outcome) (aid : String)
    (retryCount : Nat) : Nat → Nat → List Ev
  | _, 0 => []
  | attempt, remaining + 1 =>
    [Ev.rateWait, Ev.s2Lookup aid]
    ++ (match oracle attempt with
        | Outcome.raiseErr _ =>
          if attempt < retryCount then [Ev.sleepSec (1 * (attempt + 1))] else []
        | _ => [])
    ++ primaryFailSchedule oracle aid retryCount (attempt + 1) remaining

/-- The cache step of a lookup misses: there is no cache, or `get` on
the cleaned identifier yields nothing. -/
def cacheMisses (st : ClientState) (now : Int) (aid : String) : Bool :=
  match st.cache with
  | none => true
  | some c => (cacheGet now c aid).1.isNone

/-- The cache dict (when present) has pairwise distinct keys — the
invariant every Python dict satisfies. -/
def cacheNodup (st : ClientState) : Bool :=
  match st.cache with
  | none => true
  | some c => decide ((c.entries.map Prod.fst).Nodup)

/-- All five counters are present in the stats dict (true of the dict
built by `__init__`, false for `cache_hits` after `reset_stats`). -/
def fullStats (d : List (String × Nat)) : Bool :=
  (dictGet d "total_attempts").isSome && (dictGet d "cache_hits").isSome &&
  (dictGet d "semantic_scholar_success").isSome &&
  (dictGet d "semantic_scholar_fail").isSome &&
  (dictGet d "scholar_fallback_used").isSome

/-- The accounting invariant: every counted lookup was a cache hit, a
primary success, or a primary failure. -/
def statsInv (d : List (String × Nat)) : Bool :=
  (dictGet d "total_attempts").getD 0 ==
    (dictGet d "cache_hits").getD 0 + (dictGet d "semantic_scholar_success").getD 0 +
    (dictGet d "semantic_scholar_fail").getD 0

/-- The client state after the `total_attempts` increment and a missed
cache consultation. -/
def afterCacheCheck (st : ClientState) (now : Int) (aid : String)
    (s0 : List (String × Nat)) : ClientState :=
  match st.cache with
  | some c => { st with stats := s0, cache := some (cacheGet now c aid).2 }
  | none => { st with stats := s0 }

/-- The default paper used for positional indexing in batch statements. -/
def dummyPaper : Paper := ⟨"", "", 0, 0⟩

/-! ## Dictionary lemmas -/

theorem dictGet_dictIncr {d d' : List (String × Nat)} {k : String}
    (h : dictIncr d k = some d') (k' : String) :
    dictGet d' k' =
      if k' = k then (dictGet d k).map (fun v => v + 1) else dictGet d k' := by
  induction d generalizing d' with
  | nil => simp [dictIncr] at h
  | cons hd tl ih =>
    obtain ⟨k1, v1⟩ := hd
    simp only [dictIncr] at h
    by_cases hk : k1 = k
    · subst hk
      rw [if_pos rfl] at h
      cases h
      by_cases hk' : k' = k1
      · subst hk'
        simp [dictGet]
      · have hk'' : ¬(k1 = k') := fun he => hk' he.symm
        simp [dictGet, hk', hk'']
    · rw [if_neg hk] at h
      cases htl : dictIncr tl k with
      | none => rw [htl] at h; cases h
      | some r =>
        rw [htl] at h
        cases h
        by_cases hk' : k1 = k'
        · have hine : ¬(k' = k) := fun he => hk (hk'.trans he)
          simp [dictGet, hk', hine]
        · simp [dictGet, hk', hk, ih htl]

theorem dictIncr_isSome {d : List (String × Nat)} {k : String} :
    (dictIncr d k).isSome = (dictGet d k).isSome := by
  induction d with
  | nil => rfl
  | cons hd tl ih =>
    obtain ⟨k1, v1⟩ := hd
    by_cases hk : k1 = k <;> simp [dictIncr, dictGet, hk, ih]

theorem cdictGet_eq_none_of_not_mem {d : List (String × CacheEntry)} {k : String}
    (h : k ∉ d.map Prod.fst) : cdictGet d k = none := by
  induction d with
  | nil => rfl
  | cons hd tl ih =>
    obtain ⟨k1, v1⟩ := hd
    simp only [List.map_cons, List.mem_cons] at h
    push_neg at h
    have hne : ¬(k1 = k) := fun he => h.1 he.symm
    simp [cdictGet, hne, ih h.2]

theorem cdictGet_cdictErase {d : List (String × CacheEntry)} {k : String}
    (h : (d.map Prod.fst).Nodup) : cdictGet (cdictErase d k) k = none := by
  induction d with
  | nil => rfl
  | cons hd tl ih =>
    obtain ⟨k1, v1⟩ := hd
    simp only [List.map_cons, List.nodup_cons] at h
    by_cases hk : k1 = k
    · subst hk
      rw [cdictErase, if_pos rfl]
      exact cdictGet_eq_none_of_not_mem h.1
    · rw [cdictErase, if_neg hk, cdictGet, if_neg hk]
      exact ih h.2

/-- A miss on `CitationCache.get` leaves no entry for the key behind
(the stale entry, if any, is evicted). -/
theorem cacheGet_miss_no_entry {now : Int} {c : CacheState} {k : String}
    (hnd : (c.entries.map Prod.fst).Nodup)
    (h : (cacheGet now c k).1 = none) :
    cdictGet (cacheGet now c k).2.entries k = none := by
  cases hg : cdictGet c.entries k with
  | none => simp [cacheGet, hg]
  | some e =>
    by_cases hexp : now - e.cached_at > (c.cacheDays : Int) * 86400
    · simp only [cacheGet, hg, if_pos hexp]
      exact cdictGet_cdictErase hnd
    · exfalso
      simp [cacheGet, hg, hexp] at h

/-! ## Retry-loop lemmas -/

theorem primaryLoop_allFail (oracle : Nat → Outcome) (now : Int) (aid : String)
    (retryCount : Nat) :
    ∀ remaining attempt (st : ClientState) (evs : List Ev),
    (∀ i, attempt ≤ i → i < attempt + remaining → ∀ p, oracle i ≠ Outcome.found p) →
    primaryLoop oracle now aid retryCount attempt remaining st evs =
      (none, st, evs ++ primaryFailSchedule oracle aid retryCount attempt remaining) := by
  intro remaining
  induction remaining with
  | zero =>
    intro attempt st evs _
    simp [primaryLoop, primaryFailSchedule]
  | succ n ih =>
    intro attempt st evs h
    have hA : ∀ p, oracle attempt ≠ Outcome.found p :=
      h attempt le_rfl (by omega)
    have hrest : ∀ i, attempt + 1 ≤ i → i < attempt + 1 + n →
        ∀ p, oracle i ≠ Outcome.found p :=
      fun i h1 h2 p => h i (by omega) (by omega) p
    cases ho : oracle attempt with
    | notFound =>
      simp only [primaryLoop, ho]
      rw [ih (attempt + 1) st _ hrest]
      simp [primaryFailSchedule, ho, List.append_assoc]
    | raiseErr b =>
      simp only [primaryLoop, ho]
      by_cases hlt : attempt < retryCount
      · rw [if_pos hlt, ih (attempt + 1) st _ hrest]
        simp [primaryFailSchedule, ho, if_pos hlt, List.append_assoc]
      · rw [if_neg hlt, ih (attempt + 1) st _ hrest]
        simp [primaryFailSchedule, ho, if_neg hlt, List.append_assoc]
    | found p => exact absurd ho (hA p)

theorem primaryLoop_scholar_mem (oracle : Nat → Outcome) (now : Int)
    (aid : String) (retryCount : Nat) :
    ∀ remaining attempt (st : ClientState) (evs : List Ev) (t : String),
    Ev.scholarLookup t ∈ (primaryLoop oracle now aid retryCount attempt remaining st evs).2.2 →
    Ev.scholarLookup t ∈ evs := by
  intro remaining
  induction remaining with
  | zero =>
    intro attempt st evs t h
    simpa [primaryLoop] using h
  | succ n ih =>
    intro attempt st evs t h
    cases ho : oracle attempt with
    | notFound =>
      rw [primaryLoop] at h
      simp only [ho] at h
      have := ih (attempt + 1) st _ t h
      simpa using this
    | raiseErr b =>
      rw [primaryLoop] at h
      simp only [ho] at h
      by_cases hlt : attempt < retryCount
      · rw [if_pos hlt] at h
        have := ih (attempt + 1) st _ t h
        simpa using this
      · rw [if_neg hlt] at h
        have := ih (attempt + 1) st _ t h
        simpa using this
    | found p =>
      rw [primaryLoop] at h
      simp only [ho] at h
      cases hincr : dictIncr st.stats "semantic_scholar_success" with
      | some s' =>
        rw [hincr] at h
        simp only [List.mem_append] at h
        rcases h with h | h
        · exact h
        · simp at h
      | none =>
        rw [hincr] at h
        by_cases hlt : attempt < retryCount
        · rw [if_pos hlt] at h
          have := ih (attempt + 1) st _ t h
          simpa using this
        · rw [if_neg hlt] at h
          have := ih (attempt + 1) st _ t h
          simpa using this

theorem primaryLoop_found_isSome (oracle : Nat → Outcome) (now : Int)
    (aid : String) (retryCount : Nat) :
    ∀ remaining attempt (st : ClientState) (evs : List Ev),
    (dictGet st.stats "semantic_scholar_success").isSome = true →
    (∃ i, attempt ≤ i ∧ i < attempt + remaining ∧ ∃ p, oracle i = Outcome.found p) →
    (primaryLoop oracle now aid retryCount attempt remaining st evs).1.isSome = true := by
  intro remaining
  induction remaining with
  | zero =>
    intro attempt st evs _ h
    obtain ⟨i, h1, h2, _⟩ := h
    omega
  | succ n ih =>
    intro attempt st evs hkey h
    cases ho : oracle attempt with
    | found p =>
      have hi : (dictIncr st.stats "semantic_scholar_success").isSome = true := by
        rw [dictIncr_isSome]; exact hkey
      obtain ⟨s', hs'⟩ := Option.isSome_iff_exists.mp hi
      simp [primaryLoop, ho, hs']
    | notFound =>
      obtain ⟨i, h1, h2, p, hp⟩ := h
      have hne : i ≠ attempt := by
        intro he; rw [he, ho] at hp; cases hp
      simp only [primaryLoop, ho]
      exact ih (attempt + 1) st _ hkey ⟨i, by omega, by omega, p, hp⟩
    | raiseErr b =>
      obtain ⟨i, h1, h2, p, hp⟩ := h
      have hne : i ≠ attempt := by
        intro he; rw [he, ho] at hp; cases hp
      simp only [primaryLoop, ho]
      by_cases hlt : attempt < retryCount
      · rw [if_pos hlt]
        exact ih (attempt + 1) st _ hkey ⟨i, by omega, by omega, p, hp⟩
      · rw [if_neg hlt]
        exact ih (attempt + 1) st _ hkey ⟨i, by omega, by omega, p, hp⟩

theorem primaryLoop_state_cases (oracle : Nat → Outcome) (now : Int)
    (aid : String) (retryCount : Nat) :
    ∀ remaining attempt (st : ClientState) (evs : List Ev),
    ((primaryLoop oracle now aid retryCount attempt remaining st evs).1 = none ∧
     (primaryLoop oracle now aid retryCount attempt remaining st evs).2.1 = st) ∨
    (∃ r s', (primaryLoop oracle now aid retryCount attempt remaining st evs).1 = some r ∧
      dictIncr st.stats "semantic_scholar_success" = some s' ∧
      (primaryLoop oracle now aid retryCount attempt remaining st evs).2.1.stats = s' ∧
      (primaryLoop oracle now aid retryCount attempt remaining st evs).2.1.useScholarFallback
        = st.useScholarFallback) := by
  intro remaining
  induction remaining with
  | zero =>
    intro attempt st evs
    left
    simp [primaryLoop]
  | succ n ih =>
    intro attempt st evs
    cases ho : oracle attempt with
    | notFound =>
      simp only [primaryLoop, ho]
      exact ih (attempt + 1) st _
    | raiseErr b =>
      simp only [primaryLoop, ho]
      by_cases hlt : attempt < retryCount
      · rw [if_pos hlt]; exact ih (attempt + 1) st _
      · rw [if_neg hlt]; exact ih (attempt + 1) st _
    | found p =>
      cases hincr : dictIncr st.stats "semantic_scholar_success" with
      | some s' =>
        right
        refine ⟨parseS2Paper p, s', ?_, rfl, ?_, ?_⟩ <;>
          cases hc : st.cache <;> simp [primaryLoop, ho, hincr, hc]
      | none =>
        simp only [primaryLoop, ho, hincr]
        by_cases hlt : attempt < retryCount
        · rw [if_pos hlt]
          rcases ih (attempt + 1) st
              (evs ++ [Ev.rateWait, Ev.s2Lookup aid] ++ [Ev.sleepSec (1 * (attempt + 1))]) with
            h | ⟨r, s', _, h2, _, _⟩
          · exact Or.inl h
          · rw [hincr] at h2; cases h2
        · rw [if_neg hlt]
          rcases ih (attempt + 1) st (evs ++ [Ev.rateWait, Ev.s2Lookup aid]) with
            h | ⟨r, s', _, h2, _, _⟩
          · exact Or.inl h
          · rw [hincr] at h2; cases h2

theorem countS2_append (a b : List Ev) :
    countS2 (a ++ b) = countS2 a + countS2 b := by
  induction a with
  | nil => simp [countS2]
  | cons hd tl ih =>
    cases hd <;> simp [countS2, ih] <;> omega

theorem countS2_schedule (oracle : Nat → Outcome) (aid : String)
    (retryCount : Nat) :
    ∀ remaining attempt,
    countS2 (primaryFailSchedule oracle aid retryCount attempt remaining) = remaining := by
  intro remaining
  induction remaining with
  | zero => intro attempt; rfl
  | succ n ih =>
    intro attempt
    rw [primaryFailSchedule]
    cases ho : oracle attempt with
    | notFound => simp [countS2_append, countS2, ih]
    | found p => simp [countS2_append, countS2, ih]
    | raiseErr b =>
      by_cases hlt : attempt < retryCount <;>
        simp [countS2_append, countS2, ih, hlt]

theorem primaryLoop_raiseErr_true_eq_false (now : Int) (aid : String)
    (retryCount : Nat) :
    ∀ remaining attempt (st : ClientState) (evs : List Ev),
    primaryLoop (fun _ => Outcome.raiseErr true) now aid retryCount attempt remaining st evs =
    primaryLoop (fun _ => Outcome.raiseErr false) now aid retryCount attempt remaining st evs := by
  intro remaining
  induction remaining with
  | zero => intro attempt st evs; rfl
  | succ n ih =>
    intro attempt st evs
    simp only [primaryLoop]
    exact ih (attempt + 1) st _

/-- Symbolic execution of a lookup in which every primary attempt
fails: the call reduces to the post-loop continuation applied to the
unchanged state and the failure schedule. -/
theorem getCitations_allFail_eq (st : ClientState) (oracle : Nat → Outcome)
    (so : Option ScholarData) (now : Int) (id : String) (title : Option String)
    (rc : Nat) {s0 : List (String × Nat)}
    (h0 : dictIncr st.stats "total_attempts" = some s0)
    (hm : cacheMisses st now (cleanArxivId id) = true)
    (hf : ∀ i, i < rc + 1 → ∀ p, oracle i ≠ Outcome.found p) :
    getCitationsByArxivId st oracle so now id title rc =
      (let aid := cleanArxivId id
       let st1 := afterCacheCheck st now aid s0
       let evs := primaryFailSchedule oracle aid rc 0 (rc + 1)
       match dictIncr st1.stats "semantic_scholar_fail" with
       | none => (Except.error "KeyError: semantic_scholar_fail", st1, evs)
       | some s2 =>
         let st3 : ClientState := { st1 with stats := s2 }
         if titleTruthy title ∧ st3.useScholarFallback then
           let fb := getScholarFallback st3 so (title.getD "")
           let st5 : ClientState :=
             match fb.1, fb.2.1.cache with
             | some r, some c => { fb.2.1 with cache := some (cacheSet now c aid r) }
             | _, _ => fb.2.1
           (Except.ok fb.1, st5, evs ++ fb.2.2)
         else (Except.ok none, st3, evs)) := by
  have hloop := primaryLoop_allFail oracle now (cleanArxivId id) rc (rc + 1) 0
  cases hc : st.cache with
  | none =>
    simp only [getCitationsByArxivId, h0, hc, afterCacheCheck]
    rw [hloop _ _ (fun i h1 h2 p => hf i (by omega) p)]
    rfl
  | some c =>
    have hnone : (cacheGet now c (cleanArxivId id)).1 = none := by
      have := hm
      rw [cacheMisses, hc] at this
      exact Option.isNone_iff_eq_none.mp this
    simp only [getCitationsByArxivId, h0, hc, afterCacheCheck, hnone]
    rw [hloop _ _ (fun i h1 h2 p => hf i (by omega) p)]
    rfl

/-- The fallback emits at most its single scholar lookup event. -/
theorem getScholarFallback_trace (st : ClientState) (so : Option ScholarData)
    (t : String) :
    (getScholarFallback st so t).2.2 = [] ∨
    (getScholarFallback st so t).2.2 = [Ev.scholarLookup t] := by
  unfold getScholarFallback
  by_cases h : st.useScholarFallback = false
  · simp [h]
  · cases so with
    | none => simp [h]
    | some d =>
      by_cases hz : d.citation_count > 0
      · cases hincr : dictIncr st.stats "scholar_fallback_used" <;>
          simp [h, hz, hincr]
      · simp [h, hz]

/-- In an all-fail run the trace is the failure schedule followed by at
most the fallback's scholar event. -/
theorem getCitations_allFail_trace (st : ClientState) (oracle : Nat → Outcome)
    (so : Option ScholarData) (now : Int) (id : String) (title : Option String)
    (rc : Nat)
    (ht : (dictGet st.stats "total_attempts").isSome = true)
    (hm : cacheMisses st now (cleanArxivId id) = true)
    (hf : ∀ i, i < rc + 1 → ∀ p, oracle i ≠ Outcome.found p) :
    ∃ tl, (getCitationsByArxivId st oracle so now id title rc).2.2
        = primaryFailSchedule oracle (cleanArxivId id) rc 0 (rc + 1) ++ tl ∧
      countS2 tl = 0 := by
  obtain ⟨s0, h0⟩ := Option.isSome_iff_exists.mp (by rw [dictIncr_isSome]; exact ht)
  rw [getCitations_allFail_eq st oracle so now id title rc h0 hm hf]
  simp only []
  cases hfk : dictIncr (afterCacheCheck st now (cleanArxivId id) s0).stats
      "semantic_scholar_fail" with
  | none =>
    exact ⟨[], by simp [hfk], rfl⟩
  | some s2 =>
    simp only [hfk]
    by_cases hg : titleTruthy title = true ∧
        ({ afterCacheCheck st now (cleanArxivId id) s0 with stats := s2 } : ClientState).useScholarFallback = true
    · rw [if_pos hg]
      refine ⟨(getScholarFallback _ so (title.getD "")).2.2, rfl, ?_⟩
      rcases getScholarFallback_trace
          ({ afterCacheCheck st now (cleanArxivId id) s0 with stats := s2 }) so (title.getD "") with
        h | h <;> rw [h] <;> rfl
    · rw [if_neg hg]
      exact ⟨[], by simp, rfl⟩

/-- In an all-fail run the number of remote primary lookups is exactly
`retryCount + 1`. -/
theorem getCitations_allFail_countS2 (st : ClientState) (oracle : Nat → Outcome)
    (so : Option ScholarData) (now : Int) (id : String) (title : Option String)
    (rc : Nat)
    (ht : (dictGet st.stats "total_attempts").isSome = true)
    (hm : cacheMisses st now (cleanArxivId id) = true)
    (hf : ∀ i, i < rc + 1 → ∀ p, oracle i ≠ Outcome.found p) :
    countS2 ((getCitationsByArxivId st oracle so now id title rc).2.2) = rc + 1 := by
  obtain ⟨tl, htr, htl⟩ := getCitations_allFail_trace st oracle so now id title rc ht hm hf
  rw [htr, countS2_append, htl, countS2_schedule]

/-- The trace of the batch helper `fetch_citation` is the trace of the
underlying lookup. -/
theorem fetchCitation_trace (env : BatchEnv) (now : Int) (st : ClientState)
    (p : Paper) :
    (fetchCitation env now st p).2.2 =
      (getCitationsByArxivId st (env.oracleFor p) (env.scholarFor p) now p.id
        (some p.title) batchRetryCount).2.2 := by
  unfold fetchCitation
  rcases h : getCitationsByArxivId st (env.oracleFor p) (env.scholarFor p) now p.id
      (some p.title) batchRetryCount with ⟨res, st', evs⟩
  cases res with
  | error e => simp
  | ok o => cases o <;> simp

/-! ## Claim theorems -/

/-- C4: `CitationCache.get` returns absent when there is no entry or
when `now - cachedAt` exceeds the TTL (`cache_days`, default 7 days);
in the stale case the expired entry is removed as a side effect (under
the dict key-uniqueness invariant the key is really gone); a fresh
entry returns the stored record. -/
theorem cache_get_ttl_contract (now : Int) (c : CacheState) (k : String) :
    defaultCacheDays = 7 ∧
    (cdictGet c.entries k = none → cacheGet now c k = (none, c)) ∧
    (∀ e, cdictGet c.entries k = some e →
      now - e.cached_at > (c.cacheDays : Int) * 86400 →
      cacheGet now c k = (none, { c with entries := cdictErase c.entries k }) ∧
      ((c.entries.map Prod.fst).Nodup →
        cdictGet (cacheGet now c k).2.entries k = none)) ∧
    (∀ e, cdictGet c.entries k = some e →
      ¬(now - e.cached_at > (c.cacheDays : Int) * 86400) →
      cacheGet now c k = (some e.data, c)) := by
  refine ⟨rfl, ?_, ?_, ?_⟩
  · intro h
    simp [cacheGet, h]
  · intro e he hexp
    refine ⟨by simp [cacheGet, he, hexp], ?_⟩
    intro hnd
    exact cacheGet_miss_no_entry hnd (by simp [cacheGet, he, hexp])
  · intro e he hexp
    simp [cacheGet, he, hexp]

/-- Witness for C4: a concrete stale entry (8+ days old) is evicted and
reported absent. -/
theorem cache_get_ttl_contract_witness :
    cacheGet 700000 ⟨7, [("x", ⟨⟨5, 1, 2, some 2020, [], none, []⟩, 0⟩)]⟩ "x"
      = (none, ⟨7, []⟩) := by
  have h := ((cache_get_ttl_contract 700000
      ⟨7, [("x", ⟨⟨5, 1, 2, some 2020, [], none, []⟩, 0⟩)]⟩ "x").2.2.1
      ⟨⟨5, 1, 2, some 2020, [], none, []⟩, 0⟩ (by decide) (by decide)).1
  exact h.trans (by decide)

/-- C5 fails as stated: the cleaning is a chain of case-sensitive
literal `replace` calls, so the upper-case prefixed form
`"ARXIV:2301.12345"` is not normalized to `"2301.12345"`; with a fresh
cache entry stored under the bare identifier, the two forms give
different lookup results. -/
theorem clean_arxiv_id_counterexample :
    cleanArxivId "ARXIV:2301.12345" ≠ cleanArxivId "2301.12345" ∧
    (getCitationsByArxivId
        ⟨true, some ⟨7, [("2301.12345", ⟨⟨5, 1, 2, some 2020, [], none, []⟩, 900⟩)]⟩, initStats⟩
        (fun _ => Outcome.notFound) none 1000 "ARXIV:2301.12345" none 2).1 ≠
    (getCitationsByArxivId
        ⟨true, some ⟨7, [("2301.12345", ⟨⟨5, 1, 2, some 2020, [], none, []⟩, 900⟩)]⟩, initStats⟩
        (fun _ => Outcome.notFound) none 1000 "2301.12345" none 2).1 := by
  constructor
  · decide
  · decide

/-- C5 amended: the cleaning strips the literal prefixes `'arxiv:'` and
`'arXiv:'` and the literal substrings `'v1'`, `'v2'`, `'v3'`; in
particular `"arXiv:2301.12345v3"` maps to `"2301.12345"`, and any two
identifier spellings with the same cleaned form behave identically in
the whole lookup (same cache entry, same enriched result, same stats
and trace). -/
theorem clean_arxiv_id_normalization (st : ClientState) (oracle : Nat → Outcome)
    (so : Option ScholarData) (now : Int) (title : Option String) (rc : Nat)
    (a b : String) (h : cleanArxivId a = cleanArxivId b) :
    cleanArxivId "arXiv:2301.12345v3" = "2301.12345" ∧
    getCitationsByArxivId st oracle so now a title rc =
      getCitationsByArxivId st oracle so now b title rc := by
  refine ⟨by decide, ?_⟩
  unfold getCitationsByArxivId
  rw [h]

/-- Witness for C5 (amended): `"arXiv:2301.12345v3"` and `"2301.12345"`
give the very same result on a concrete client state. -/
theorem clean_arxiv_id_normalization_witness :
    getCitationsByArxivId
        ⟨true, some ⟨7, [("2301.12345", ⟨⟨5, 1, 2, some 2020, [], none, []⟩, 900⟩)]⟩, initStats⟩
        (fun _ => Outcome.notFound) none 1000 "arXiv:2301.12345v3" none 2 =
    getCitationsByArxivId
        ⟨true, some ⟨7, [("2301.12345", ⟨⟨5, 1, 2, some 2020, [], none, []⟩, 900⟩)]⟩, initStats⟩
        (fun _ => Outcome.notFound) none 1000 "2301.12345" none 2 :=
  (clean_arxiv_id_normalization
    ⟨true, some ⟨7, [("2301.12345", ⟨⟨5, 1, 2, some 2020, [], none, []⟩, 900⟩)]⟩, initStats⟩
    (fun _ => Outcome.notFound) none 1000 none 2
    "arXiv:2301.12345v3" "2301.12345" (by decide)).2

/-- C7 is a code bug: `reset_stats` rebuilds the stats dict without the
`cache_hits` key, while `__init__` creates it with all five. After a
reset, `cache_hits` does not read zero — it is absent — and the first
lookup that hits the cache raises `KeyError: 'cache_hits'` instead of
incrementing normally. -/
theorem reset_stats_missing_key :
    dictGet resetStatsDict "cache_hits" = none ∧
    dictGet initStats "cache_hits" = some 0 ∧
    (getCitationsByArxivId
        (resetStats ⟨true, some ⟨7, [("2301.12345", ⟨⟨5, 1, 2, some 2020, [], none, []⟩, 900⟩)]⟩, initStats⟩)
        (fun _ => Outcome.notFound) none 1000 "2301.12345" none 2).1
      = Except.error "KeyError: cache_hits" := by
  refine ⟨rfl, rfl, ?_⟩
  decide

theorem dictGet_dictIncr_ne {d d' : List (String × Nat)} {k : String}
    (h : dictIncr d k = some d') {k' : String} (hne : k' ≠ k) :
    dictGet d' k' = dictGet d k' := by
  rw [dictGet_dictIncr h k', if_neg hne]

theorem dictGet_dictIncr_self {d d' : List (String × Nat)} {k : String}
    (h : dictIncr d k = some d') :
    dictGet d' k = (dictGet d k).map (fun v => v + 1) := by
  rw [dictGet_dictIncr h k, if_pos rfl]

theorem dictGet_dictIncr_isSome {d d' : List (String × Nat)} {k : String}
    (h : dictIncr d k = some d') (k' : String) :
    (dictGet d' k').isSome = (dictGet d k').isSome := by
  rw [dictGet_dictIncr h k']
  by_cases hk : k' = k <;> simp [hk]

theorem afterCacheCheck_stats (st : ClientState) (now : Int) (aid : String)
    (s0 : List (String × Nat)) : (afterCacheCheck st now aid s0).stats = s0 := by
  cases hc : st.cache <;> simp [afterCacheCheck, hc]

theorem afterCacheCheck_flag (st : ClientState) (now : Int) (aid : String)
    (s0 : List (String × Nat)) :
    (afterCacheCheck st now aid s0).useScholarFallback = st.useScholarFallback := by
  cases hc : st.cache <;> simp [afterCacheCheck, hc]

/-- The fallback either leaves the stats untouched or performs exactly
the `scholar_fallback_used` increment. -/
theorem getScholarFallback_stats_cases (st : ClientState) (so : Option ScholarData)
    (t : String) :
    (getScholarFallback st so t).2.1.stats = st.stats ∨
    (∃ s', dictIncr st.stats "scholar_fallback_used" = some s' ∧
      (getScholarFallback st so t).2.1.stats = s') := by
  unfold getScholarFallback
  by_cases h : st.useScholarFallback = false
  · simp [h]
  · cases so with
    | none => simp [h]
    | some d =>
      by_cases hz : d.citation_count > 0
      · cases hincr : dictIncr st.stats "scholar_fallback_used" with
        | some s' =>
          right
          exact ⟨s', rfl, by simp [h, hz, hincr]⟩
        | none => simp [h, hz, hincr]
      · simp [h, hz]

/-- With the fallback switch on, the fallback emits its single scholar
lookup event. -/
theorem getScholarFallback_trace_enabled (st : ClientState)
    (so : Option ScholarData) (t : String) (h : st.useScholarFallback = true) :
    (getScholarFallback st so t).2.2 = [Ev.scholarLookup t] := by
  unfold getScholarFallback
  rw [if_neg (by simp [h])]
  cases so with
  | none => rfl
  | some d =>
    by_cases hz : d.citation_count > 0
    · cases hincr : dictIncr st.stats "scholar_fallback_used" <;> simp [hz, hincr]
    · simp [hz]

/-- A fallback response with a zero citation count is rejected: nothing
is returned and the state is unchanged. -/
theorem getScholarFallback_zero (st : ClientState) (d : ScholarData) (t : String)
    (hz : d.citation_count = 0) :
    (getScholarFallback st (some d) t).1 = none ∧
    (getScholarFallback st (some d) t).2.1 = st := by
  unfold getScholarFallback
  by_cases h : st.useScholarFallback = false
  · simp [h]
  · simp [h, hz]

/-- Complete accounting of a lookup call: either the `total_attempts`
increment raises, or exactly one of the `cache_hits`,
`semantic_scholar_success`, `semantic_scholar_fail` counters is bumped
(with `scholar_fallback_used` possibly bumped after a failure), and the
result value in each case is as stated. -/
theorem getCitations_stats_cases (st : ClientState) (oracle : Nat → Outcome)
    (so : Option ScholarData) (now : Int) (id : String) (title : Option String)
    (rc : Nat) :
    (dictIncr st.stats "total_attempts" = none ∧
      (getCitationsByArxivId st oracle so now id title rc).2.1.stats = st.stats) ∨
    (∃ s0, dictIncr st.stats "total_attempts" = some s0 ∧
      ((dictIncr s0 "cache_hits" = none ∧
          (getCitationsByArxivId st oracle so now id title rc).2.1.stats = s0) ∨
       (∃ s1 r, dictIncr s0 "cache_hits" = some s1 ∧
          (getCitationsByArxivId st oracle so now id title rc).1 = Except.ok (some r) ∧
          (getCitationsByArxivId st oracle so now id title rc).2.1.stats = s1) ∨
       (∃ s1 r, dictIncr s0 "semantic_scholar_success" = some s1 ∧
          (getCitationsByArxivId st oracle so now id title rc).1 = Except.ok (some r) ∧
          (getCitationsByArxivId st oracle so now id title rc).2.1.stats = s1) ∨
       (dictIncr s0 "semantic_scholar_fail" = none ∧
          (getCitationsByArxivId st oracle so now id title rc).2.1.stats = s0) ∨
       (∃ s2 v, dictIncr s0 "semantic_scholar_fail" = some s2 ∧
          (getCitationsByArxivId st oracle so now id title rc).1 = Except.ok v ∧
          ((getCitationsByArxivId st oracle so now id title rc).2.1.stats = s2 ∨
           ∃ s3, dictIncr s2 "scholar_fallback_used" = some s3 ∧
             (getCitationsByArxivId st oracle so now id title rc).2.1.stats = s3)))) := by
  simp only [getCitationsByArxivId]
  split
  · rename_i heq
    exact Or.inl ⟨heq, rfl⟩
  · rename_i s0 heq0
    right
    refine ⟨s0, heq0, ?_⟩
    split
    · rename_i r1 st1 heqc
      have hcs : st1.stats = s0 := by
        cases hcc : st.cache with
        | none =>
          rw [hcc] at heqc
          simp at heqc
        | some c0 =>
          rw [hcc] at heqc
          simp only [Prod.mk.injEq] at heqc
          rw [← heqc.2]
      rw [hcs]
      split
      · rename_i heqch
        refine Or.inl ⟨heqch, ?_⟩
        exact hcs
      · rename_i s1 heqch
        exact Or.inr (Or.inl ⟨s1, r1, heqch, rfl, rfl⟩)
    · rename_i st1 heqm
      have hst1 : st1.stats = s0 := by
        cases hcc : st.cache with
        | none =>
          rw [hcc] at heqm
          simp only [Prod.mk.injEq] at heqm
          rw [← heqm.2]
        | some c0 =>
          rw [hcc] at heqm
          simp only [Prod.mk.injEq] at heqm
          rw [← heqm.2]
      split
      · rename_i r2 st2 evs heqL
        rcases primaryLoop_state_cases oracle now (cleanArxivId id) rc (rc + 1) 0 st1 [] with
          ⟨e1, _⟩ | ⟨r', s1, e1, e2, e3, _⟩
        · rw [heqL] at e1
          simp at e1
        · rw [heqL] at e1 e3
          simp only [Prod.mk.injEq] at e1
          rw [hst1] at e2
          refine Or.inr (Or.inr (Or.inl ⟨s1, r2, e2, rfl, ?_⟩))
          exact e3
      · rename_i st2 evs heqL
        rcases primaryLoop_state_cases oracle now (cleanArxivId id) rc (rc + 1) 0 st1 [] with
          ⟨_, e2⟩ | ⟨r', s1, e1, _, _, _⟩
        swap
        · rw [heqL] at e1
          simp at e1
        · rw [heqL] at e2
          simp only at e2
          rw [e2, hst1]
          split
          · rename_i heqF
            refine Or.inr (Or.inr (Or.inr (Or.inl ⟨heqF, ?_⟩)))
            exact hst1
          · rename_i s2 heqF
            split
            · rename_i hg
              split
              · rename_i rf cf heqf1 heqfc
                refine Or.inr (Or.inr (Or.inr (Or.inr ⟨s2, some rf, heqF, ?_, ?_⟩)))
                · rw [heqf1]
                · rcases getScholarFallback_stats_cases
                      ⟨st1.useScholarFallback, st1.cache, s2⟩ so (title.getD "") with h | ⟨s3, h1, h2⟩
                  · exact Or.inl h
                  · exact Or.inr ⟨s3, h1, h2⟩
              · rename_i hother
                refine Or.inr (Or.inr (Or.inr (Or.inr ⟨s2,
                  (getScholarFallback ⟨st1.useScholarFallback, st1.cache, s2⟩ so (title.getD "")).1,
                  heqF, rfl, ?_⟩)))
                rcases getScholarFallback_stats_cases
                    ⟨st1.useScholarFallback, st1.cache, s2⟩ so (title.getD "") with h | ⟨s3, h1, h2⟩
                · exact Or.inl h
                · exact Or.inr ⟨s3, h1, h2⟩
            · rename_i hg
              exact Or.inr (Or.inr (Or.inr (Or.inr ⟨s2, none, heqF, rfl, Or.inl rfl⟩)))

/-- Writing an accepted fallback record through the cache does not
touch the stats. -/
theorem cacheWriteBack_stats (fb : Option CitationRecord × ClientState × List Ev)
    (now : Int) (aid : String) :
    (match fb.1, fb.2.1.cache with
     | some r, some c => { fb.2.1 with cache := some (cacheSet now c aid r) }
     | _, _ => fb.2.1).stats = fb.2.1.stats := by
  cases h1 : fb.1 <;> cases h2 : fb.2.1.cache <;> simp

/-- When no attempt of either oracle succeeds, the returned value and
final client state do not depend on which failing oracle ran (only the
trace differs). -/
theorem getCitations_oracle_irrel (st : ClientState) (o1 o2 : Nat → Outcome)
    (so : Option ScholarData) (now : Int) (id : String) (title : Option String)
    (rc : Nat)
    (hf1 : ∀ i p, o1 i ≠ Outcome.found p) (hf2 : ∀ i p, o2 i ≠ Outcome.found p) :
    (getCitationsByArxivId st o1 so now id title rc).1 =
      (getCitationsByArxivId st o2 so now id title rc).1 ∧
    (getCitationsByArxivId st o1 so now id title rc).2.1 =
      (getCitationsByArxivId st o2 so now id title rc).2.1 := by
  cases h0 : dictIncr st.stats "total_attempts" with
  | none => simp [getCitationsByArxivId, h0]
  | some s0 =>
    by_cases hm : cacheMisses st now (cleanArxivId id) = true
    · rw [getCitations_allFail_eq st o1 so now id title rc h0 hm (fun i _ p => hf1 i p),
        getCitations_allFail_eq st o2 so now id title rc h0 hm (fun i _ p => hf2 i p)]
      simp only []
      cases hfk : dictIncr (afterCacheCheck st now (cleanArxivId id) s0).stats
          "semantic_scholar_fail" with
      | none => exact ⟨rfl, rfl⟩
      | some s2 =>
        simp only [hfk]
        by_cases hg : titleTruthy title = true ∧
            ({ afterCacheCheck st now (cleanArxivId id) s0 with stats := s2 } : ClientState).useScholarFallback = true
        · rw [if_pos hg, if_pos hg]
          exact ⟨rfl, rfl⟩
        · rw [if_neg hg, if_neg hg]
          exact ⟨rfl, rfl⟩
    · cases hc : st.cache with
      | none =>
        rw [cacheMisses, hc] at hm
        simp at hm
      | some c =>
        cases hv : (cacheGet now c (cleanArxivId id)).1 with
        | none =>
          rw [cacheMisses, hc] at hm
          simp [hv] at hm
        | some r =>
          refine ⟨?_, ?_⟩ <;> simp only [getCitationsByArxivId, h0, hc, hv]

/-- C9 fails as stated: with a rate-limited primary (every attempt
raises a 429-style error) the lookup returns exactly the same value and
the same final client state as with a plain "not found" primary —
nothing surfaced to the batch caller distinguishes the two. -/
theorem rate_limit_not_distinguished_counterexample :
    (getCitationsByArxivId ⟨true, some ⟨7, []⟩, initStats⟩
        (fun _ => Outcome.raiseErr true) none 1000 "2301.12345" none 2).1 =
      (getCitationsByArxivId ⟨true, some ⟨7, []⟩, initStats⟩
        (fun _ => Outcome.notFound) none 1000 "2301.12345" none 2).1 ∧
    (getCitationsByArxivId ⟨true, some ⟨7, []⟩, initStats⟩
        (fun _ => Outcome.raiseErr true) none 1000 "2301.12345" none 2).2.1 =
      (getCitationsByArxivId ⟨true, some ⟨7, []⟩, initStats⟩
        (fun _ => Outcome.notFound) none 1000 "2301.12345" none 2).2.1 ∧
    (getCitationsByArxivId ⟨true, some ⟨7, []⟩, initStats⟩
        (fun _ => Outcome.raiseErr true) none 1000 "2301.12345" none 2).1
      = Except.ok none := by
  refine ⟨?_, ?_, ?_⟩ <;> decide

/-- C9 amended: rate-limit signals from the primary are caught by the
same blanket `except` as every other failure. A run whose attempts all
raise rate-limit errors is indistinguishable, in everything the
function returns to the caller, from a run with generic errors (fully
equal output) and from a run whose attempts all report "not found"
(equal result value and equal final state). Only the arXiv search path
of `ArxivClient` re-raises a 429 with a retry hint; the citation path
does not. -/
theorem rate_limit_uniform_handling (st : ClientState) (so : Option ScholarData)
    (now : Int) (id : String) (title : Option String) (rc : Nat) :
    getCitationsByArxivId st (fun _ => Outcome.raiseErr true) so now id title rc =
      getCitationsByArxivId st (fun _ => Outcome.raiseErr false) so now id title rc ∧
    (getCitationsByArxivId st (fun _ => Outcome.raiseErr true) so now id title rc).1 =
      (getCitationsByArxivId st (fun _ => Outcome.notFound) so now id title rc).1 ∧
    (getCitationsByArxivId st (fun _ => Outcome.raiseErr true) so now id title rc).2.1 =
      (getCitationsByArxivId st (fun _ => Outcome.notFound) so now id title rc).2.1 := by
  refine ⟨?_, ?_, ?_⟩
  · simp only [getCitationsByArxivId, primaryLoop_raiseErr_true_eq_false]
  · exact (getCitations_oracle_irrel st (fun _ => Outcome.raiseErr true)
      (fun _ => Outcome.notFound) so now id title rc
      (fun _ p h => Outcome.noConfusion h) (fun _ p h => Outcome.noConfusion h)).1
  · exact (getCitations_oracle_irrel st (fun _ => Outcome.raiseErr true)
      (fun _ => Outcome.notFound) so now id title rc
      (fun _ p h => Outcome.noConfusion h) (fun _ p h => Outcome.noConfusion h)).2

/-- C3: for an uncached identifier whose primary attempts all fail, the
trace is exactly the failure schedule (`retryCount + 1` iterations of
rate-limit wait then remote lookup, with a sleep of `1 * (attempt + 1)`
seconds after an exception when a retry remains and no sleep after a
"not found"), followed only by non-lookup fallback events; in
particular exactly `retryCount + 1` remote lookups are performed. -/
theorem primary_retry_contract (st : ClientState) (oracle : Nat → Outcome)
    (so : Option ScholarData) (now : Int) (id : String) (title : Option String)
    (rc : Nat)
    (ht : (dictGet st.stats "total_attempts").isSome = true)
    (hm : cacheMisses st now (cleanArxivId id) = true)
    (hf : ∀ i, i < rc + 1 → ∀ p, oracle i ≠ Outcome.found p) :
    (∃ tl, (getCitationsByArxivId st oracle so now id title rc).2.2
        = primaryFailSchedule oracle (cleanArxivId id) rc 0 (rc + 1) ++ tl ∧
      countS2 tl = 0) ∧
    countS2 ((getCitationsByArxivId st oracle so now id title rc).2.2) = rc + 1 :=
  ⟨getCitations_allFail_trace st oracle so now id title rc ht hm hf,
   getCitations_allFail_countS2 st oracle so now id title rc ht hm hf⟩

/-- Witness for C3: a concrete all-fail lookup with the default retry
count performs exactly 3 remote lookups. -/
theorem primary_retry_contract_witness :
    countS2 ((getCitationsByArxivId ⟨true, some ⟨7, []⟩, initStats⟩
        (fun _ => Outcome.raiseErr false) none 1000 "2301.12345" none
        defaultRetryCount).2.2) = defaultRetryCount + 1 :=
  (primary_retry_contract ⟨true, some ⟨7, []⟩, initStats⟩
    (fun _ => Outcome.raiseErr false) none 1000 "2301.12345" none
    defaultRetryCount (by decide) (by decide)
    (fun _ _ p h => Outcome.noConfusion h)).2

/-- C6 fails as stated: through the batch enrichment path an uncached
all-fail paper triggers only 2 primary attempts, not 3 — the inner
`fetch_citation` passes `retry_count=1`, overriding the method default
of 2. -/
theorem batch_retry_counterexample :
    countS2 ((enrichWithCitations ⟨fun _ _ => Outcome.raiseErr false, fun _ => none⟩
        1000 ⟨true, some ⟨7, []⟩, initStats⟩ [⟨"2301.12345", "T", 0, 0⟩]).2.2) = 2 ∧
    (2 : Nat) ≠ 3 := by
  constructor
  · decide
  · decide

/-- C6 amended: the lookup method's own default is `retryCount = 2`
(3 attempts), but the batch enrichment path hard-codes `retryCount = 1`,
so an uncached paper whose attempts all fail gets exactly
`batchRetryCount + 1 = 2` primary attempts before the fallback is
considered. -/
theorem batch_retry_amended (env : BatchEnv) (now : Int) (st : ClientState)
    (p : Paper)
    (ht : (dictGet st.stats "total_attempts").isSome = true)
    (hm : cacheMisses st now (cleanArxivId p.id) = true)
    (hf : ∀ i, i < batchRetryCount + 1 → ∀ q, env.oracleFor p i ≠ Outcome.found q) :
    batchRetryCount = 1 ∧ defaultRetryCount = 2 ∧
    countS2 ((fetchCitation env now st p).2.2) = batchRetryCount + 1 := by
  refine ⟨rfl, rfl, ?_⟩
  rw [fetchCitation_trace]
  exact getCitations_allFail_countS2 st (env.oracleFor p) (env.scholarFor p)
    now p.id (some p.title) batchRetryCount ht hm hf

/-- Witness for C6 (amended): the concrete batch-path lookup performs
2 remote attempts. -/
theorem batch_retry_amended_witness :
    countS2 ((fetchCitation ⟨fun _ _ => Outcome.raiseErr false, fun _ => none⟩
        1000 ⟨true, some ⟨7, []⟩, initStats⟩ ⟨"2301.12345", "T", 0, 0⟩).2.2)
      = batchRetryCount + 1 :=
  (batch_retry_amended ⟨fun _ _ => Outcome.raiseErr false, fun _ => none⟩
    1000 ⟨true, some ⟨7, []⟩, initStats⟩ ⟨"2301.12345", "T", 0, 0⟩
    (by decide) (by decide) (fun _ _ q h => Outcome.noConfusion h)).2.2

/-- C1: batch enrichment returns as many papers as it was given; the
paper at every position is the image of the input paper at the same
position under the per-paper `fetch_citation` step (at some
intermediate client state); and whenever the lookup obtains no record
(absent result or a swallowed exception) `fetch_citation` returns the
input paper with all fields — including its pre-existing
`citation_count` and `influential_citations` — unchanged. -/
theorem enrich_batch_contract (env : BatchEnv) (now : Int) (st : ClientState)
    (papers : List Paper) :
    (enrichWithCitations env now st papers).1.length = papers.length ∧
    (∀ i, i < papers.length → ∃ stI : ClientState,
      (enrichWithCitations env now st papers).1.getD i dummyPaper =
        (fetchCitation env now stI (papers.getD i dummyPaper)).1) ∧
    (∀ (stI : ClientState) (p : Paper),
      (∀ r, (getCitationsByArxivId stI (env.oracleFor p) (env.scholarFor p) now
          p.id (some p.title) batchRetryCount).1 ≠ Except.ok (some r)) →
      (fetchCitation env now stI p).1 = p) := by
  refine ⟨?_, ?_, ?_⟩
  · induction papers generalizing st with
    | nil => rfl
    | cons p rest ih =>
      simp only [enrichWithCitations, List.length_cons]
      rw [ih (fetchCitation env now st p).2.1]
  · induction papers generalizing st with
    | nil =>
      intro i hi
      exact absurd hi (by simp)
    | cons p rest ih =>
      intro i hi
      cases i with
      | zero => exact ⟨st, rfl⟩
      | succ n =>
        obtain ⟨stI, hI⟩ := ih (fetchCitation env now st p).2.1 n (by simpa using hi)
        exact ⟨stI, hI⟩
  · intro stI p hno
    unfold fetchCitation
    rcases h : getCitationsByArxivId stI (env.oracleFor p) (env.scholarFor p) now
        p.id (some p.title) batchRetryCount with ⟨res, st', evs⟩
    cases res with
    | error e => rfl
    | ok o =>
      cases o with
      | none => rfl
      | some m =>
        have : (getCitationsByArxivId stI (env.oracleFor p) (env.scholarFor p) now
            p.id (some p.title) batchRetryCount).1 = Except.ok (some m) := by
          rw [h]
        exact absurd this (hno m)

/-- Witness for C1: a concrete one-paper batch whose lookup fails
completely returns the paper unchanged, in a list of length 1. -/
theorem enrich_batch_contract_witness :
    (fetchCitation ⟨fun _ _ => Outcome.raiseErr false, fun _ => none⟩ 1000
        ⟨false, some ⟨7, []⟩, initStats⟩ ⟨"2301.12345", "T", 0, 0⟩).1
      = ⟨"2301.12345", "T", 0, 0⟩ ∧
    (enrichWithCitations ⟨fun _ _ => Outcome.raiseErr false, fun _ => none⟩ 1000
        ⟨false, some ⟨7, []⟩, initStats⟩ [⟨"2301.12345", "T", 0, 0⟩]).1.length = 1 :=
  ⟨(enrich_batch_contract ⟨fun _ _ => Outcome.raiseErr false, fun _ => none⟩ 1000
      ⟨false, some ⟨7, []⟩, initStats⟩ []).2.2
      ⟨false, some ⟨7, []⟩, initStats⟩ ⟨"2301.12345", "T", 0, 0⟩
      (fun r h => Option.noConfusion (Except.ok.inj h)),
   (enrich_batch_contract ⟨fun _ _ => Outcome.raiseErr false, fun _ => none⟩ 1000
      ⟨false, some ⟨7, []⟩, initStats⟩ [⟨"2301.12345", "T", 0, 0⟩]).1⟩

/-- C8: `total_attempts` is incremented exactly once per lookup call,
independently of the number of retry attempts made; when the cache
misses and every primary attempt fails, `semantic_scholar_fail` is
incremented exactly once, and with the fallback off the call returns
absent. -/
theorem stats_increment_contract (st : ClientState) (oracle : Nat → Outcome)
    (so : Option ScholarData) (now : Int) (id : String) (title : Option String)
    (rc : Nat) :
    (∀ t, dictGet st.stats "total_attempts" = some t →
      dictGet (getCitationsByArxivId st oracle so now id title rc).2.1.stats
        "total_attempts" = some (t + 1)) ∧
    (∀ f, dictGet st.stats "semantic_scholar_fail" = some f →
      (dictGet st.stats "total_attempts").isSome = true →
      cacheMisses st now (cleanArxivId id) = true →
      (∀ i, i < rc + 1 → ∀ p, oracle i ≠ Outcome.found p) →
      dictGet (getCitationsByArxivId st oracle so now id title rc).2.1.stats
        "semantic_scholar_fail" = some (f + 1) ∧
      (st.useScholarFallback = false →
        (getCitationsByArxivId st oracle so now id title rc).1 = Except.ok none)) := by
  constructor
  · intro t ht
    rcases getCitations_stats_cases st oracle so now id title rc with
      ⟨hn, _⟩ | ⟨s0, h0, hcase⟩
    · have hcontra : (dictIncr st.stats "total_attempts").isSome = true := by
        rw [dictIncr_isSome, ht]
        rfl
      rw [hn] at hcontra
      cases hcontra
    · have hs0 : dictGet s0 "total_attempts" = some (t + 1) := by
        rw [dictGet_dictIncr_self h0, ht]
        rfl
      rcases hcase with ⟨_, hfin⟩ | ⟨s1, r, hi, _, hfin⟩ | ⟨s1, r, hi, _, hfin⟩ |
        ⟨_, hfin⟩ | ⟨s2, v, hi, _, hfin⟩
      · rw [hfin]; exact hs0
      · rw [hfin, dictGet_dictIncr_ne hi (by decide)]; exact hs0
      · rw [hfin, dictGet_dictIncr_ne hi (by decide)]; exact hs0
      · rw [hfin]; exact hs0
      · rcases hfin with hfin | ⟨s3, hi3, hfin⟩
        · rw [hfin, dictGet_dictIncr_ne hi (by decide)]; exact hs0
        · rw [hfin, dictGet_dictIncr_ne hi3 (by decide),
            dictGet_dictIncr_ne hi (by decide)]
          exact hs0
  · intro f hf htot hm hfail
    obtain ⟨s0, h0⟩ := Option.isSome_iff_exists.mp
      (by rw [dictIncr_isSome]; exact htot)
    have hs0f : dictGet s0 "semantic_scholar_fail" = some f := by
      rw [dictGet_dictIncr_ne h0 (by decide)]
      exact hf
    rw [getCitations_allFail_eq st oracle so now id title rc h0 hm hfail]
    simp only []
    rw [afterCacheCheck_stats]
    split
    · rename_i heqF
      have hcontra : (dictIncr s0 "semantic_scholar_fail").isSome = true := by
        rw [dictIncr_isSome, hs0f]
        rfl
      rw [heqF] at hcontra
      cases hcontra
    · rename_i s2 heqF
      have hval : dictGet s2 "semantic_scholar_fail" = some (f + 1) := by
        rw [dictGet_dictIncr_self heqF, hs0f]
        rfl
      constructor
      · split
        · rename_i hg
          rw [cacheWriteBack_stats]
          rcases getScholarFallback_stats_cases
              ⟨(afterCacheCheck st now (cleanArxivId id) s0).useScholarFallback,
               (afterCacheCheck st now (cleanArxivId id) s0).cache, s2⟩ so
              (title.getD "") with h | ⟨s3, h1, h2⟩
          · rw [h]; exact hval
          · rw [h2, dictGet_dictIncr_ne h1 (by decide)]; exact hval
        · rename_i hg
          exact hval
      · intro hoff
        split
        · rename_i hg
          have h2 : (afterCacheCheck st now (cleanArxivId id) s0).useScholarFallback
              = true := hg.2
          rw [afterCacheCheck_flag, hoff] at h2
          cases h2
        · rfl

/-- Witness for C8: a concrete all-fail lookup from a fresh client with
the fallback disabled ends with `semantic_scholar_fail = 1`. -/
theorem stats_increment_contract_witness :
    dictGet ((getCitationsByArxivId ⟨false, some ⟨7, []⟩, initStats⟩
        (fun _ => Outcome.raiseErr false) none 1000 "2301.12345" none 2).2.1.stats)
      "semantic_scholar_fail" = some 1 :=
  ((stats_increment_contract ⟨false, some ⟨7, []⟩, initStats⟩
    (fun _ => Outcome.raiseErr false) none 1000 "2301.12345" none 2).2 0 rfl
    (by decide) (by decide) (fun _ _ p h => Outcome.noConfusion h)).1

/-- C10: on a freshly constructed client the five counters exist and
satisfy `totalAttempts = cacheHits + primarySuccess + primaryFail`, and
every completed lookup call preserves both facts — each call bumps
exactly one of the cache-hit, primary-success, primary-fail counters
alongside `total_attempts` (a call from a full-stats state also never
raises). -/
theorem stats_accounting_invariant (st : ClientState) (oracle : Nat → Outcome)
    (so : Option ScholarData) (now : Int) (id : String) (title : Option String)
    (rc : Nat)
    (hfull : fullStats st.stats = true) (hinv : statsInv st.stats = true) :
    fullStats initStats = true ∧ statsInv initStats = true ∧
    (∃ v, (getCitationsByArxivId st oracle so now id title rc).1 = Except.ok v) ∧
    fullStats (getCitationsByArxivId st oracle so now id title rc).2.1.stats = true ∧
    statsInv (getCitationsByArxivId st oracle so now id title rc).2.1.stats = true := by
  refine ⟨by decide, by decide, ?_⟩
  simp only [fullStats, Bool.and_eq_true] at hfull
  obtain ⟨⟨⟨⟨hT, hC⟩, hS⟩, hF⟩, hU⟩ := hfull
  obtain ⟨t, ht⟩ := Option.isSome_iff_exists.mp hT
  obtain ⟨c, hc⟩ := Option.isSome_iff_exists.mp hC
  obtain ⟨s, hs⟩ := Option.isSome_iff_exists.mp hS
  obtain ⟨f, hf⟩ := Option.isSome_iff_exists.mp hF
  obtain ⟨u, hu⟩ := Option.isSome_iff_exists.mp hU
  have hinv' : t = c + s + f := by
    simp only [statsInv, ht, hc, hs, hf, Option.getD_some, beq_iff_eq] at hinv
    exact hinv
  rcases getCitations_stats_cases st oracle so now id title rc with
    ⟨hn, _⟩ | ⟨s0, h0, hcase⟩
  · rw [← dictIncr_isSome] at hT
    rw [hn] at hT
    cases hT
  · have h0T : dictGet s0 "total_attempts" = some (t + 1) := by
      rw [dictGet_dictIncr_self h0, ht]; rfl
    have h0C : dictGet s0 "cache_hits" = some c := by
      rw [dictGet_dictIncr_ne h0 (by decide)]; exact hc
    have h0S : dictGet s0 "semantic_scholar_success" = some s := by
      rw [dictGet_dictIncr_ne h0 (by decide)]; exact hs
    have h0F : dictGet s0 "semantic_scholar_fail" = some f := by
      rw [dictGet_dictIncr_ne h0 (by decide)]; exact hf
    have h0U : dictGet s0 "scholar_fallback_used" = some u := by
      rw [dictGet_dictIncr_ne h0 (by decide)]; exact hu
    rcases hcase with ⟨hch, _⟩ | ⟨s1, r, hi, hres, hfin⟩ | ⟨s1, r, hi, hres, hfin⟩ |
      ⟨hch, _⟩ | ⟨s2, v, hi, hres, hfin⟩
    · exfalso
      have : (dictIncr s0 "cache_hits").isSome = true := by
        rw [dictIncr_isSome, h0C]; rfl
      rw [hch] at this
      cases this
    · -- cache hit
      refine ⟨⟨some r, hres⟩, ?_, ?_⟩
      · simp only [fullStats, Bool.and_eq_true, hfin,
          dictGet_dictIncr_self hi, dictGet_dictIncr_ne hi (by decide : "total_attempts" ≠ "cache_hits"),
          dictGet_dictIncr_ne hi (by decide : "semantic_scholar_success" ≠ "cache_hits"),
          dictGet_dictIncr_ne hi (by decide : "semantic_scholar_fail" ≠ "cache_hits"),
          dictGet_dictIncr_ne hi (by decide : "scholar_fallback_used" ≠ "cache_hits"),
          h0T, h0C, h0S, h0F, h0U]
        simp
      · simp only [statsInv, hfin,
          dictGet_dictIncr_self hi, dictGet_dictIncr_ne hi (by decide : "total_attempts" ≠ "cache_hits"),
          dictGet_dictIncr_ne hi (by decide : "semantic_scholar_success" ≠ "cache_hits"),
          dictGet_dictIncr_ne hi (by decide : "semantic_scholar_fail" ≠ "cache_hits"),
          h0T, h0C, h0S, h0F, Option.map_some', Option.getD_some, beq_iff_eq]
        omega
    · -- primary success
      refine ⟨⟨some r, hres⟩, ?_, ?_⟩
      · simp only [fullStats, Bool.and_eq_true, hfin,
          dictGet_dictIncr_self hi,
          dictGet_dictIncr_ne hi (by decide : "total_attempts" ≠ "semantic_scholar_success"),
          dictGet_dictIncr_ne hi (by decide : "cache_hits" ≠ "semantic_scholar_success"),
          dictGet_dictIncr_ne hi (by decide : "semantic_scholar_fail" ≠ "semantic_scholar_success"),
          dictGet_dictIncr_ne hi (by decide : "scholar_fallback_used" ≠ "semantic_scholar_success"),
          h0T, h0C, h0S, h0F, h0U]
        simp
      · simp only [statsInv, hfin,
          dictGet_dictIncr_self hi,
          dictGet_dictIncr_ne hi (by decide : "total_attempts" ≠ "semantic_scholar_success"),
          dictGet_dictIncr_ne hi (by decide : "cache_hits" ≠ "semantic_scholar_success"),
          dictGet_dictIncr_ne hi (by decide : "semantic_scholar_fail" ≠ "semantic_scholar_success"),
          h0T, h0C, h0S, h0F, Option.map_some', Option.getD_some, beq_iff_eq]
        omega
    · exfalso
      have : (dictIncr s0 "semantic_scholar_fail").isSome = true := by
        rw [dictIncr_isSome, h0F]; rfl
      rw [hch] at this
      cases this
    · -- primary fail, possibly followed by the fallback counter
      have h2T : dictGet s2 "total_attempts" = some (t + 1) := by
        rw [dictGet_dictIncr_ne hi (by decide)]; exact h0T
      have h2C : dictGet s2 "cache_hits" = some c := by
        rw [dictGet_dictIncr_ne hi (by decide)]; exact h0C
      have h2S : dictGet s2 "semantic_scholar_success" = some s := by
        rw [dictGet_dictIncr_ne hi (by decide)]; exact h0S
      have h2F : dictGet s2 "semantic_scholar_fail" = some (f + 1) := by
        rw [dictGet_dictIncr_self hi, h0F]; rfl
      have h2U : dictGet s2 "scholar_fallback_used" = some u := by
        rw [dictGet_dictIncr_ne hi (by decide)]; exact h0U
      refine ⟨⟨v, hres⟩, ?_, ?_⟩
      · rcases hfin with hfin | ⟨s3, hi3, hfin⟩
        · simp only [fullStats, Bool.and_eq_true, hfin, h2T, h2C, h2S, h2F, h2U]
          simp
        · simp only [fullStats, Bool.and_eq_true, hfin,
            dictGet_dictIncr_ne hi3 (by decide : "total_attempts" ≠ "scholar_fallback_used"),
            dictGet_dictIncr_ne hi3 (by decide : "cache_hits" ≠ "scholar_fallback_used"),
            dictGet_dictIncr_ne hi3 (by decide : "semantic_scholar_success" ≠ "scholar_fallback_used"),
            dictGet_dictIncr_ne hi3 (by decide : "semantic_scholar_fail" ≠ "scholar_fallback_used"),
            dictGet_dictIncr_self hi3,
            h2T, h2C, h2S, h2F, h2U]
          simp
      · rcases hfin with hfin | ⟨s3, hi3, hfin⟩
        · simp only [statsInv, hfin, h2T, h2C, h2S, h2F, Option.getD_some, beq_iff_eq]
          omega
        · simp only [statsInv, hfin,
            dictGet_dictIncr_ne hi3 (by decide : "total_attempts" ≠ "scholar_fallback_used"),
            dictGet_dictIncr_ne hi3 (by decide : "cache_hits" ≠ "scholar_fallback_used"),
            dictGet_dictIncr_ne hi3 (by decide : "semantic_scholar_success" ≠ "scholar_fallback_used"),
            dictGet_dictIncr_ne hi3 (by decide : "semantic_scholar_fail" ≠ "scholar_fallback_used"),
            h2T, h2C, h2S, h2F, Option.getD_some, beq_iff_eq]
          omega

/-- Witness for C10: a concrete successful lookup from a fresh client
keeps the accounting identity. -/
theorem stats_accounting_invariant_witness :
    statsInv ((getCitationsByArxivId ⟨true, some ⟨7, []⟩, initStats⟩
        (fun _ => Outcome.found ⟨some 4, some 1, some 0, none, none, none, none⟩)
        none 1000 "2301.12345" none 2).2.1.stats) = true :=
  (stats_accounting_invariant ⟨true, some ⟨7, []⟩, initStats⟩
    (fun _ => Outcome.found ⟨some 4, some 1, some 0, none, none, none, none⟩)
    none 1000 "2301.12345" none 2 (by decide) (by decide)).2.2.2.2

/-- After a missed cache consultation there is no entry left under the
looked-up key (an absent entry stays absent, a stale one is evicted). -/
theorem afterCacheCheck_miss_no_entry (st : ClientState) (now : Int) (aid : String)
    (s0 : List (String × Nat))
    (hm : cacheMisses st now aid = true) (hnd : cacheNodup st = true) :
    ∀ c', (afterCacheCheck st now aid s0).cache = some c' →
      cdictGet c'.entries aid = none := by
  intro c' hc'
  cases hcc : st.cache with
  | none =>
    simp only [afterCacheCheck, hcc] at hc'
    cases hc'
  | some c0 =>
    simp only [afterCacheCheck, hcc] at hc'
    have hv : (cacheGet now c0 aid).1 = none := by
      rw [cacheMisses, hcc] at hm
      exact Option.isNone_iff_eq_none.mp hm
    have hnd0 : (c0.entries.map Prod.fst).Nodup := by
      rw [cacheNodup, hcc] at hnd
      exact of_decide_eq_true hnd
    cases hc'
    exact cacheGet_miss_no_entry hnd0 hv

/-- C2: the scholar fallback is invoked (its lookup event appears in
the trace) if and only if the cache missed, every primary attempt
failed, the fallback is enabled and a truthy (non-empty) title was
supplied; and a fallback response carrying a zero citation count is
never returned to the caller, never counted in `scholar_fallback_used`,
and never written to the cache. -/
theorem fallback_gating (st : ClientState) (oracle : Nat → Outcome)
    (so : Option ScholarData) (now : Int) (id : String) (title : Option String)
    (rc : Nat)
    (htot : (dictGet st.stats "total_attempts").isSome = true)
    (hsucc : (dictGet st.stats "semantic_scholar_success").isSome = true)
    (hfk : (dictGet st.stats "semantic_scholar_fail").isSome = true)
    (hnd : cacheNodup st = true) :
    ((∃ t, Ev.scholarLookup t ∈
        (getCitationsByArxivId st oracle so now id title rc).2.2) ↔
      (cacheMisses st now (cleanArxivId id) = true ∧
       (∀ i, i < rc + 1 → ∀ p, oracle i ≠ Outcome.found p) ∧
       st.useScholarFallback = true ∧ titleTruthy title = true)) ∧
    (∀ d, so = some d → d.citation_count = 0 →
      cacheMisses st now (cleanArxivId id) = true →
      (∀ i, i < rc + 1 → ∀ p, oracle i ≠ Outcome.found p) →
      (getCitationsByArxivId st oracle so now id title rc).1 = Except.ok none ∧
      dictGet (getCitationsByArxivId st oracle so now id title rc).2.1.stats
        "scholar_fallback_used" = dictGet st.stats "scholar_fallback_used" ∧
      (∀ c', (getCitationsByArxivId st oracle so now id title rc).2.1.cache = some c' →
        cdictGet c'.entries (cleanArxivId id) = none)) := by
  obtain ⟨s0, h0⟩ := Option.isSome_iff_exists.mp
    (by rw [dictIncr_isSome]; exact htot)
  have hs0succ : (dictGet s0 "semantic_scholar_success").isSome = true := by
    rw [dictGet_dictIncr_ne h0 (by decide)]
    exact hsucc
  have hs0fail : (dictIncr s0 "semantic_scholar_fail").isSome = true := by
    rw [dictIncr_isSome, dictGet_dictIncr_ne h0 (by decide)]
    exact hfk
  constructor
  · constructor
    · -- an observed scholar event forces the gating conditions
      rintro ⟨t0, hmem⟩
      cases hc : st.cache with
      | some c =>
        cases hv : (cacheGet now c (cleanArxivId id)).1 with
        | some r =>
          exfalso
          simp only [getCitationsByArxivId, h0, hc, hv] at hmem
          rcases hch : dictIncr s0 "cache_hits" with _ | s1 <;>
            rw [hch] at hmem <;> simp at hmem
        | none =>
          simp only [getCitationsByArxivId, h0, hc, hv] at hmem
          rcases hL : primaryLoop oracle now (cleanArxivId id) rc 0 (rc + 1)
              ⟨st.useScholarFallback, some (cacheGet now c (cleanArxivId id)).2, s0⟩ []
            with ⟨res, st2, evs2⟩
          rw [hL] at hmem
          have hmem_loop : ∀ hx : Ev.scholarLookup t0 ∈ evs2, False := by
            intro hx
            have := primaryLoop_scholar_mem oracle now (cleanArxivId id) rc (rc + 1) 0
              ⟨st.useScholarFallback, some (cacheGet now c (cleanArxivId id)).2, s0⟩ [] t0
              (by rw [hL]; exact hx)
            simp at this
          cases res with
          | some r =>
            simp only [] at hmem
            exact (hmem_loop hmem).elim
          | none =>
            simp only [] at hmem
            rcases hfk2 : dictIncr st2.stats "semantic_scholar_fail" with _ | s2 <;>
              rw [hfk2] at hmem <;> simp only [] at hmem
            · exact (hmem_loop hmem).elim
            · by_cases hg : titleTruthy title = true ∧ st2.useScholarFallback = true
              · have hst2 : st2 = ⟨st.useScholarFallback,
                    some (cacheGet now c (cleanArxivId id)).2, s0⟩ := by
                  rcases primaryLoop_state_cases oracle now (cleanArxivId id) rc (rc + 1) 0
                      ⟨st.useScholarFallback, some (cacheGet now c (cleanArxivId id)).2, s0⟩ []
                    with ⟨_, e2⟩ | ⟨r', s1, e1, _, _, _⟩
                  · rw [hL] at e2
                    exact e2
                  · rw [hL] at e1
                    simp at e1
                refine ⟨by simp [cacheMisses, hc, hv], ?_, ?_, hg.1⟩
                · intro i hi p hp
                  have := primaryLoop_found_isSome oracle now (cleanArxivId id) rc (rc + 1) 0
                    ⟨st.useScholarFallback, some (cacheGet now c (cleanArxivId id)).2, s0⟩ []
                    hs0succ ⟨i, by omega, by omega, p, hp⟩
                  rw [hL] at this
                  simp at this
                · have := hg.2
                  rw [hst2] at this
                  exact this
              · rw [if_neg hg] at hmem
                exact (hmem_loop hmem).elim
      | none =>
        simp only [getCitationsByArxivId, h0, hc] at hmem
        rcases hL : primaryLoop oracle now (cleanArxivId id) rc 0 (rc + 1)
            ⟨st.useScholarFallback, none, s0⟩ []
          with ⟨res, st2, evs2⟩
        rw [hL] at hmem
        have hmem_loop : ∀ hx : Ev.scholarLookup t0 ∈ evs2, False := by
          intro hx
          have := primaryLoop_scholar_mem oracle now (cleanArxivId id) rc (rc + 1) 0
            ⟨st.useScholarFallback, none, s0⟩ [] t0
            (by rw [hL]; exact hx)
          simp at this
        cases res with
        | some r =>
          simp only [] at hmem
          exact (hmem_loop hmem).elim
        | none =>
          simp only [] at hmem
          rcases hfk2 : dictIncr st2.stats "semantic_scholar_fail" with _ | s2 <;>
            rw [hfk2] at hmem <;> simp only [] at hmem
          · exact (hmem_loop hmem).elim
          · by_cases hg : titleTruthy title = true ∧ st2.useScholarFallback = true
            · have hst2 : st2 = ⟨st.useScholarFallback, none, s0⟩ := by
                rcases primaryLoop_state_cases oracle now (cleanArxivId id) rc (rc + 1) 0
                    ⟨st.useScholarFallback, none, s0⟩ []
                  with ⟨_, e2⟩ | ⟨r', s1, e1, _, _, _⟩
                · rw [hL] at e2
                  exact e2
                · rw [hL] at e1
                  simp at e1
              refine ⟨by simp [cacheMisses, hc], ?_, ?_, hg.1⟩
              · intro i hi p hp
                have := primaryLoop_found_isSome oracle now (cleanArxivId id) rc (rc + 1) 0
                  ⟨st.useScholarFallback, none, s0⟩ []
                  hs0succ ⟨i, by omega, by omega, p, hp⟩
                rw [hL] at this
                simp at this
              · have := hg.2
                rw [hst2] at this
                exact this
            · rw [if_neg hg] at hmem
              exact (hmem_loop hmem).elim
    · -- the gating conditions force the scholar lookup
      rintro ⟨hm, hfl, hen, hti⟩
      rw [getCitations_allFail_eq st oracle so now id title rc h0 hm hfl]
      simp only []
      rw [afterCacheCheck_stats]
      have hflag : (afterCacheCheck st now (cleanArxivId id) s0).useScholarFallback
          = true := by
        rw [afterCacheCheck_flag]
        exact hen
      split
      · rename_i heqF
        rw [heqF] at hs0fail
        cases hs0fail
      · rename_i s2 heqF
        split
        · rename_i hg
          refine ⟨title.getD "", ?_⟩
          rw [getScholarFallback_trace_enabled
            ⟨(afterCacheCheck st now (cleanArxivId id) s0).useScholarFallback,
             (afterCacheCheck st now (cleanArxivId id) s0).cache, s2⟩ so
            (title.getD "") hflag]
          simp
        · rename_i hg
          exact absurd ⟨hti, hflag⟩ hg
  · -- zero-count fallback results are rejected, uncounted and uncached
    rintro d rfl hz hm hfl
    rw [getCitations_allFail_eq st oracle (some d) now id title rc h0 hm hfl]
    simp only []
    rw [afterCacheCheck_stats]
    split
    · rename_i heqF
      rw [heqF] at hs0fail
      cases hs0fail
    · rename_i s2 heqF
      have hzero := getScholarFallback_zero
        ⟨(afterCacheCheck st now (cleanArxivId id) s0).useScholarFallback,
         (afterCacheCheck st now (cleanArxivId id) s0).cache, s2⟩ d (title.getD "") hz
      have hstats : dictGet s2 "scholar_fallback_used"
          = dictGet st.stats "scholar_fallback_used" := by
        rw [dictGet_dictIncr_ne heqF (by decide), dictGet_dictIncr_ne h0 (by decide)]
      split
      · rename_i hg
        refine ⟨?_, ?_, ?_⟩
        · rw [hzero.1]
        · rw [cacheWriteBack_stats, hzero.2]
          exact hstats
        · intro c' hc'
          rw [hzero.1] at hc'
          rw [hzero.2] at hc'
          exact afterCacheCheck_miss_no_entry st now (cleanArxivId id) s0 hm hnd c' hc'
      · rename_i hg
        refine ⟨rfl, hstats, ?_⟩
        intro c' hc'
        exact afterCacheCheck_miss_no_entry st now (cleanArxivId id) s0 hm hnd c' hc'

/-- Witness for C2: with every primary attempt failing acting on a
fresh client, a zero-count scholar response yields an absent result and
an untouched fallback counter. -/
theorem fallback_gating_witness :
    (getCitationsByArxivId ⟨true, some ⟨7, []⟩, initStats⟩
        (fun _ => Outcome.raiseErr false) (some ⟨0, none, none⟩) 1000 "2301.12345"
        (some "A Title") 2).1 = Except.ok none :=
  ((fallback_gating ⟨true, some ⟨7, []⟩, initStats⟩
    (fun _ => Outcome.raiseErr false) (some ⟨0, none, none⟩) 1000 "2301.12345"
    (some "A Title") 2 (by decide) (by decide) (by decide) (by decide)).2
    ⟨0, none, none⟩ rfl rfl (by decide)
    (fun _ _ p h => Outcome.noConfusion h)).1

end DeepSci
